import Mathlib

/-!
Shallow embedding of `src/_workers_next/src/app/page.tsx` (the storefront
homepage handler `Home` and its helper `stripMarkdown`).

Modelling conventions:
* JavaScript strings are `String`, arrays are `List`, `Map` is an association
  list read through `List.lookup`, numbers that the handler treats as integers
  are `Int` (the rating average, a float in JS, is `Rat`).
* A fallible read (`Promise` that may reject) is `Except Unit α`; the
  `.catch(() => d)` / `try … catch` pattern is `fallbackExcept e d`.
* `unstable_cache` is a memoisation decorator that returns the producer's
  value; it is modelled as the identity on the wrapped read.
* JS `Array.prototype.sort` is a stable comparison sort; it is modelled by
  `List.insertionSort`, which is stable.
-/

/-- The set of characters matched by the JavaScript regex class `\s`
(whitespace and line terminators), used by `/\s+/g`, `String.prototype.trim`
and the leading-whitespace skip of `Number.parseInt`. -/
def jsIsSpace (c : Char) : Bool :=
  c == ' ' || c == '\t' || c == '\n' || c == '\r' ||
  c.toNat == 11 || c.toNat == 12 || c.toNat == 160 || c.toNat == 0x1680 ||
  (0x2000 ≤ c.toNat && c.toNat ≤ 0x200A) ||
  c.toNat == 0x2028 || c.toNat == 0x2029 || c.toNat == 0x202F ||
  c.toNat == 0x205F || c.toNat == 0x3000 || c.toNat == 0xFEFF

/-- JavaScript `String.prototype.trim()`: strip `\s` characters from both
ends. -/
def jsTrim (s : String) : String :=
  String.mk (((s.toList.dropWhile jsIsSpace).reverse.dropWhile jsIsSpace).reverse)

/-- JavaScript `Number.parseInt(s, 10)`: skip leading whitespace, read an
optional sign and then a maximal run of decimal digits; `none` models the
`NaN` result when no digit is found. -/
def jsParseInt (s : String) : Option Int :=
  let cs := s.toList.dropWhile jsIsSpace
  let signRest : Int × List Char :=
    match cs with
    | '-' :: r => (-1, r)
    | '+' :: r => (1, r)
    | r => (1, r)
  let ds := signRest.2.takeWhile Char.isDigit
  if ds.isEmpty then none
  else some (signRest.1 * ds.foldl (fun n c => n * 10 + Int.ofNat (c.toNat - 48)) 0)

/-- Lazy scan for the two-character delimiter `](` of the patterns
`!\[.*?\]\(` and `\[(.*?)\]\(`: returns the captured text before the first
`](` and the remainder after it; fails on a newline (`.` does not match line
terminators) or when no `](` occurs. -/
def scanToBrkParen : List Char → Option (List Char × List Char)
  | [] => none
  | ']' :: '(' :: ds => some ([], ds)
  | c :: cs =>
    if c = '\n' then none
    else (scanToBrkParen cs).map (fun p => (c :: p.1, p.2))

/-- Lazy scan for the closing `)` of `\(.*?\)`: returns the remainder after
the first `)`; fails on a newline or when no `)` occurs. -/
def scanToParen : List Char → Option (List Char)
  | [] => none
  | ')' :: ds => some ds
  | c :: cs => if c = '\n' then none else scanToParen cs

/-- Global replacement `input.replace(/!\[.*?\]\(.*?\)/g, '')`, fuelled for
structural recursion (each step consumes at least one character, so fuel equal
to the input length always suffices; when a match attempt at `![` fails the
regex engine restarts one character later). Because both inner quantifiers
are lazy and `.` excludes newlines, if the first `](` after `![` is not
followed by a `)` before a newline then no later `](` can complete a match
either, so no cross-delimiter backtracking is needed. -/
def removeImagesF : Nat → List Char → List Char
  | 0, cs => cs
  | _ + 1, [] => []
  | f + 1, '!' :: '[' :: cs =>
    (match scanToBrkParen cs with
     | some (_, r1) =>
       match scanToParen r1 with
       | some r2 => removeImagesF f r2
       | none => '!' :: removeImagesF f ('[' :: cs)
     | none => '!' :: removeImagesF f ('[' :: cs))
  | f + 1, c :: cs => c :: removeImagesF f cs

/-- `input.replace(/!\[.*?\]\(.*?\)/g, '')`. -/
def removeImages (cs : List Char) : List Char :=
  removeImagesF cs.length cs

/-- Global replacement `input.replace(/\[(.*?)\]\(.*?\)/g, '$1')`, fuelled
like `removeImagesF`; a matched link is replaced by its captured link
text. -/
def unwrapLinksF : Nat → List Char → List Char
  | 0, cs => cs
  | _ + 1, [] => []
  | f + 1, '[' :: cs =>
    (match scanToBrkParen cs with
     | some (a, r1) =>
       match scanToParen r1 with
       | some r2 => a ++ unwrapLinksF f r2
       | none => '[' :: unwrapLinksF f cs
     | none => '[' :: unwrapLinksF f cs)
  | f + 1, c :: cs => c :: unwrapLinksF f cs

/-- `input.replace(/\[(.*?)\]\(.*?\)/g, '$1')`. -/
def unwrapLinks (cs : List Char) : List Char :=
  unwrapLinksF cs.length cs

/-- `input.replace(/[`*_>#+-]/g, ' ')`: the backtick is written
`Char.ofNat 96`. -/
def punctToSpace (c : Char) : Char :=
  if c = Char.ofNat 96 || c = '*' || c = '_' || c = '>' || c = '#' ||
     c = '+' || c = '-' then ' ' else c

/-- Collapse maximal runs of `' '` to a single `' '`; composed with mapping
every `\s` character to `' '` this is `input.replace(/\s+/g, ' ')`. -/
def squeezeSpaces : List Char → List Char
  | [] => []
  | [c] => [c]
  | c :: d :: cs =>
    if c = ' ' && d = ' ' then squeezeSpaces (d :: cs)
    else c :: squeezeSpaces (d :: cs)

/-- `stripMarkdown` from `page.tsx`: remove image syntax, unwrap link syntax
to the link text, replace markup punctuation by spaces, collapse whitespace,
trim. -/
def stripMarkdown (input : String) : String :=
  let l1 := removeImages input.toList
  let l2 := unwrapLinks l1
  let l3 := l2.map punctToSpace
  let l4 := squeezeSpaces (l3.map (fun c => if jsIsSpace c then ' ' else c))
  jsTrim (String.mk l4)

/-- One entry of the ratings map: `{ average, count }`. -/
structure Rating where
  average : Rat
  count : Int
deriving DecidableEq, Repr

/-- A product record as used by the handler: `{ id, stock, locked, sold,
description }`; `locked`, `sold` and `description` may be absent
(`undefined`). -/
structure Product where
  id : String
  stock : Int
  locked : Option Int
  sold : Option Int
  description : Option String
deriving DecidableEq, Repr

/-- A product after enrichment: the original fields spread (`...p`) plus the
computed display fields. -/
structure EnrichedProduct where
  id : String
  stock : Int
  locked : Option Int
  sold : Option Int
  description : Option String
  stockCount : Int
  soldCount : Int
  descriptionPlain : String
  rating : Rat
  reviewCount : Int
deriving DecidableEq, Repr

/-- The body of `products.map((p) => …)`: `ratingsMap.get(p.id) ||
{ average: 0, count: 0 }` (a `Map` miss yields `undefined`, so absent ids
take the zero rating), `stockCount = p.stock + (p.locked || 0)`,
`soldCount = p.sold || 0`, `descriptionPlain = stripMarkdown(p.description
|| '')`. -/
def enrich (ratingsMap : List (String × Rating)) (p : Product) : EnrichedProduct :=
  let r := (ratingsMap.lookup p.id).getD ⟨0, 0⟩
  { id := p.id, stock := p.stock, locked := p.locked, sold := p.sold,
    description := p.description,
    stockCount := p.stock + p.locked.getD 0,
    soldCount := p.sold.getD 0,
    descriptionPlain := stripMarkdown (p.description.getD ""),
    rating := r.average,
    reviewCount := r.count }

/-- Lexicographic comparison of code-point sequences: the default comparator
of JS `Array.prototype.sort`, which compares elements as strings code unit by
code unit. -/
def jsStrLeB : List Char → List Char → Bool
  | [], _ => true
  | _ :: _, [] => false
  | a :: as, b :: bs =>
    if a.toNat < b.toNat then true
    else if b.toNat < a.toNat then false
    else jsStrLeB as bs

/-- The string ordering used by a default `sort()` call. -/
def jsStrLe (a b : String) : Prop :=
  jsStrLeB a.toList b.toList = true

instance : DecidableRel jsStrLe :=
  fun a b => inferInstanceAs (Decidable (jsStrLeB a.toList b.toList = true))

/-- One category-config row `{ name, sortOrder }`; `sortOrder` may be
absent. -/
structure CategoryItem where
  name : String
  sortOrder : Option Int
deriving DecidableEq, Repr

/-- The sort key `(c.sortOrder || 0)` (an absent — or zero — `sortOrder`
reads as 0). -/
def cfgKey (c : CategoryItem) : Int :=
  c.sortOrder.getD 0

/-- The ordering imposed by the comparator
`(a, b) => (a.sortOrder || 0) - (b.sortOrder || 0)`. -/
def bySortOrder (a b : CategoryItem) : Prop :=
  cfgKey a ≤ cfgKey b

instance : DecidableRel bySortOrder :=
  fun a b => inferInstanceAs (Decidable (cfgKey a ≤ cfgKey b))

/-- `categoryConfig.sort((a, b) => (a.sortOrder || 0) - (b.sortOrder || 0))`:
JS `sort` is stable, modelled by the stable `List.insertionSort`. -/
def sortedConfig (cfg : List CategoryItem) : List CategoryItem :=
  List.insertionSort bySortOrder cfg

/-- `categoryNames`: the names of the sorted config rows. -/
def categoryNamesOf (cfg : List CategoryItem) : List String :=
  (sortedConfig cfg).map CategoryItem.name

/-- `extraCategories = productCategories.filter((c) =>
!categoryNames.includes(c)).sort()`: default `sort()` on strings is the
lexicographic order. -/
def extraCategoriesOf (cfg : List CategoryItem) (productCategories : List String) :
    List String :=
  List.insertionSort jsStrLe
    (productCategories.filter (fun c => !(categoryNamesOf cfg).contains c))

/-- `categories = [...categoryNames, ...extraCategories]`. -/
def mergedCategories (cfg : List CategoryItem) (productCategories : List String) :
    List String :=
  categoryNamesOf cfg ++ extraCategoriesOf cfg productCategories

/-- A search result `{ items, total, page, pageSize }`. -/
structure SearchResult where
  items : List Product
  total : Int
  page : Int
  pageSize : Int
deriving DecidableEq, Repr

/-- The authenticated user inside a session; `id` may be the empty string,
which is falsy in JS. -/
structure SessionUser where
  id : String
deriving DecidableEq, Repr

/-- A session, whose `user` may be absent. -/
structure Session where
  user : Option SessionUser
deriving DecidableEq, Repr

/-- The truthiness test `session?.user?.id`: the user id when a session
exists, has a user, and that user's id is non-empty. -/
def sessionUserId (s : Option Session) : Option String :=
  match s with
  | some ⟨some u⟩ => if u.id = "" then none else some u.id
  | _ => none

/-- A pending order (opaque to the handler). -/
structure OrderRec where
  id : String
deriving DecidableEq, Repr

/-- One raw query-parameter value of
`Record<string, string | string[] | undefined>`. -/
inductive ParamVal where
  | str (s : String)
  | strs (l : List String)
  | undef
deriving DecidableEq, Repr

/-- The raw request parameters the handler reads (`q`, `category`, `sort`,
`page`). -/
structure Params where
  q : ParamVal
  category : ParamVal
  sort : ParamVal
  page : ParamVal
deriving DecidableEq, Repr

/-- `typeof v === 'string' ? v : dflt`. -/
def strOr (v : ParamVal) (dflt : String) : String :=
  match v with
  | ParamVal.str s => s
  | _ => dflt

/-- `page = Math.max(1, Number.parseInt(typeof resolved.page === 'string' ?
resolved.page : '1', 10) || 1)`: `|| 1` replaces both `NaN` and `0` (falsy)
by 1. -/
def pageOf (v : ParamVal) : Int :=
  let s := strOr v "1"
  let parsed : Int :=
    match jsParseInt s with
    | some n => if n = 0 then 1 else n
    | none => 1
  max 1 parsed

/-- `const category = categoryParam && categoryParam !== 'all' ?
categoryParam : ''` applied to the trimmed raw parameter: the empty string is
falsy, so `""` and `"all"` both normalize to `""` (no filter). -/
def categoryOf (v : ParamVal) : String :=
  let categoryParam := jsTrim (strOr v "")
  if categoryParam ≠ "" ∧ categoryParam ≠ "all" then categoryParam else ""

/-- `category: category || null` in the filters of the view model. -/
def filterCategoryOf (v : ParamVal) : Option String :=
  if categoryOf v = "" then none else some (categoryOf v)

/-- `e.catch(() => d)` (and the `try … catch` around the ratings read):
a rejected read is replaced by its fallback value. -/
def fallbackExcept {α : Type} (e : Except Unit α) (d : α) : α :=
  match e with
  | Except.ok a => a
  | Except.error _ => d

/-- `productIds = products.map((p) => p.id).filter(Boolean);
sortedIds = [...productIds].sort()`: the truthy (non-empty) ids, sorted
lexicographically, duplicates retained. -/
def sortedIdsOf (products : List Product) : List String :=
  List.insertionSort jsStrLe
    ((products.map Product.id).filter (fun s => s ≠ ""))

/-- The filter values placed in the view model:
`{ q, category: category || null, sort }`. -/
structure Filters where
  q : String
  category : Option String
  sort : String
deriving DecidableEq, Repr

/-- `{ page, pageSize: PAGE_SIZE, total }`. -/
structure Pagination where
  page : Int
  pageSize : Int
  total : Int
deriving DecidableEq, Repr

/-- The props handed to `HomeContent` — the view model. -/
structure ViewModel where
  products : List EnrichedProduct
  announcement : Option String
  visitorCount : Int
  categories : List String
  categoryConfig : List CategoryItem
  pendingOrders : List OrderRec
  filters : Filters
  pagination : Pagination
deriving DecidableEq, Repr

/-- `const PAGE_SIZE = 24`. -/
def PAGE_SIZE : Int := 24

/-- The external collaborators the handler calls. `auth()` is the only read
without a local `catch`, so the session is a plain value; every other read is
fallible. The ratings read is keyed by the sorted id list and the
pending-orders read by the user id. -/
structure Backend where
  session : Option Session
  search : Except Unit SearchResult
  announcement : Except Unit (Option String)
  visitorCount : Except Unit Int
  categoryConfig : Except Unit (List CategoryItem)
  productCategories : Except Unit (List String)
  ratings : List String → Except Unit (List (String × Rating))
  pendingOrders : String → Except Unit (List OrderRec)

/-- The handler `Home` of `page.tsx`, line by line. The six parallel reads
each carry their own `catch` fallback (`{items: [], total: 0, page,
pageSize}` / `null` / `0` / `[]` / `[]`); the ratings read falls back to an
empty map; the pending-orders read runs only under `session?.user?.id` and
falls back to `[]`. `categoryConfig.sort(…)` mutates the config array in
place, so the view model receives the sorted array. `productsResult.items ||
[]` and `productsResult.total || 0` are the identity here (an array is
always truthy; `0 || 0` is `0`). -/
def Home (params : Params) (b : Backend) : ViewModel :=
  let q := jsTrim (strOr params.q "")
  let sort := jsTrim (strOr params.sort "default")
  let page := pageOf params.page
  let productsResult :=
    fallbackExcept b.search { items := [], total := 0, page := page, pageSize := PAGE_SIZE }
  let announcement := fallbackExcept b.announcement none
  let visitorCount := fallbackExcept b.visitorCount 0
  let categoryConfig := fallbackExcept b.categoryConfig []
  let productCategories := fallbackExcept b.productCategories []
  let products := productsResult.items
  let total := productsResult.total
  let sortedIds := sortedIdsOf products
  let ratingsMap := fallbackExcept (b.ratings sortedIds) []
  let productsWithRatings := products.map (enrich ratingsMap)
  let pendingOrders :=
    match sessionUserId b.session with
    | some uid => fallbackExcept (b.pendingOrders uid) []
    | none => []
  { products := productsWithRatings,
    announcement := announcement,
    visitorCount := visitorCount,
    categories := mergedCategories categoryConfig productCategories,
    categoryConfig := sortedConfig categoryConfig,
    pendingOrders := pendingOrders,
    filters := { q := q, category := filterCategoryOf params.category, sort := sort },
    pagination := { page := page, pageSize := PAGE_SIZE, total := total } }

/-! ## Concrete fixtures used by witnesses and counterexamples -/

/-- A request with no query parameters supplied. -/
def noParams : Params :=
  { q := ParamVal.undef, category := ParamVal.undef, sort := ParamVal.undef,
    page := ParamVal.undef }

/-- A backend on which every fallible read rejects and no session exists. -/
def failingBackend : Backend :=
  { session := none,
    search := Except.error (),
    announcement := Except.error (),
    visitorCount := Except.error (),
    categoryConfig := Except.error (),
    productCategories := Except.error (),
    ratings := fun _ => Except.error (),
    pendingOrders := fun _ => Except.error () }

/-- A backend whose reads all succeed with small concrete values. -/
def okBackend : Backend :=
  { session := some { user := some { id := "u1" } },
    search := Except.ok
      { items := [{ id := "p2", stock := 3, locked := some 1, sold := some 5,
                    description := some "**Hi** [link](url) ![img](url2)" },
                  { id := "p1", stock := 0, locked := none, sold := none,
                    description := none }],
        total := 2, page := 1, pageSize := 24 },
    announcement := Except.ok (some "welcome"),
    visitorCount := Except.ok 7,
    categoryConfig := Except.ok [{ name := "B", sortOrder := some 2 },
                                 { name := "A", sortOrder := some 1 }],
    productCategories := Except.ok ["A", "C"],
    ratings := fun _ => Except.ok [("p2", { average := 4, count := 2 })],
    pendingOrders := fun _ => Except.ok [{ id := "o1" }] }

/-- A backend whose reads succeed except for the ratings read. -/
def ratingsFailBackend : Backend :=
  { okBackend with ratings := fun _ => Except.error () }

/-- A concrete product fixture with no optional fields. -/
def prodP1 : Product :=
  { id := "p1", stock := 0, locked := none, sold := none, description := none }

/-- A concrete ratings mapping that does not mention `prodP1`. -/
def ratingsP9 : List (String × Rating) :=
  [("p9", { average := 4, count := 2 })]

/-- Two concrete one-field products sharing the id `"a"`. -/
def prodA1 : Product :=
  { id := "a", stock := 1, locked := none, sold := none, description := none }

/-- A second product with the same id `"a"`. -/
def prodA2 : Product :=
  { id := "a", stock := 2, locked := none, sold := none, description := none }

/-- A product with the id `"b"`. -/
def prodB : Product :=
  { id := "b", stock := 3, locked := none, sold := none, description := none }

/-! ## Helper lemmas -/

/-- The page of the pagination is the normalized `page` parameter. -/
theorem home_page_eq (p : Params) (b : Backend) :
    (Home p b).pagination.page = pageOf p.page := rfl

/-- The category of the filters is the normalized `category` parameter. -/
theorem home_filter_category_eq (p : Params) (b : Backend) :
    (Home p b).filters.category = filterCategoryOf p.category := rfl

theorem jsStrLeB_total : ∀ as bs, jsStrLeB as bs = true ∨ jsStrLeB bs as = true := by
  intro as
  induction as with
  | nil => intro bs; left; rfl
  | cons a as ih =>
    intro bs
    cases bs with
    | nil => right; rfl
    | cons b bs =>
      simp only [jsStrLeB]
      rcases Nat.lt_trichotomy a.toNat b.toNat with h | h | h
      · left; rw [if_pos h]
      · rcases ih bs with h4 | h4
        · left
          rw [if_neg (by omega), if_neg (by omega)]
          exact h4
        · right
          rw [if_neg (by omega), if_neg (by omega)]
          exact h4
      · right; rw [if_pos h]

theorem jsStrLeB_trans : ∀ as bs cs, jsStrLeB as bs = true → jsStrLeB bs cs = true →
    jsStrLeB as cs = true := by
  intro as
  induction as with
  | nil => intro bs cs _ _; rfl
  | cons a as ih =>
    intro bs cs h1 h2
    cases bs with
    | nil => simp [jsStrLeB] at h1
    | cons b bs =>
      cases cs with
      | nil => simp [jsStrLeB] at h2
      | cons c cs =>
        simp only [jsStrLeB] at h1 h2 ⊢
        rcases Nat.lt_trichotomy a.toNat b.toNat with hab | hab | hab
        · rcases Nat.lt_trichotomy b.toNat c.toNat with hbc | hbc | hbc
          · rw [if_pos (by omega)]
          · rw [if_pos (by omega)]
          · rw [if_neg (by omega), if_pos hbc] at h2
            exact absurd h2 (by simp)
        · rw [if_neg (by omega), if_neg (by omega)] at h1
          rcases Nat.lt_trichotomy b.toNat c.toNat with hbc | hbc | hbc
          · rw [if_pos (by omega)]
          · rw [if_neg (by omega), if_neg (by omega)] at h2
            rw [if_neg (by omega), if_neg (by omega)]
            exact ih bs cs h1 h2
          · rw [if_neg (by omega), if_pos hbc] at h2
            exact absurd h2 (by simp)
        · rw [if_neg (by omega), if_pos hab] at h1
          exact absurd h1 (by simp)

theorem jsStrLeB_antisymm : ∀ as bs, jsStrLeB as bs = true → jsStrLeB bs as = true →
    as = bs := by
  intro as
  induction as with
  | nil =>
    intro bs _ h2
    cases bs with
    | nil => rfl
    | cons b bs => simp [jsStrLeB] at h2
  | cons a as ih =>
    intro bs h1 h2
    cases bs with
    | nil => simp [jsStrLeB] at h1
    | cons b bs =>
      simp only [jsStrLeB] at h1 h2
      rcases Nat.lt_trichotomy a.toNat b.toNat with hab | hab | hab
      · rw [if_neg (by omega), if_pos hab] at h2
        exact absurd h2 (by simp)
      · have heq : a = b :=
          Char.ofNat_toNat a ▸ Char.ofNat_toNat b ▸ congrArg Char.ofNat hab
        rw [if_neg (by omega), if_neg (by omega)] at h1
        rw [if_neg (by omega), if_neg (by omega)] at h2
        rw [heq, ih bs h1 h2]
      · rw [if_neg (by omega), if_pos hab] at h1
        exact absurd h1 (by simp)

instance : IsTotal String jsStrLe :=
  ⟨fun a b => jsStrLeB_total a.toList b.toList⟩

instance : IsTrans String jsStrLe :=
  ⟨fun a b c => jsStrLeB_trans a.toList b.toList c.toList⟩

instance : IsAntisymm String jsStrLe :=
  ⟨fun a b h1 h2 => by
    have h := jsStrLeB_antisymm a.toList b.toList h1 h2
    exact String.ext h⟩

instance : IsTotal CategoryItem bySortOrder :=
  ⟨fun a b => le_total (cfgKey a) (cfgKey b)⟩

instance : IsTrans CategoryItem bySortOrder :=
  ⟨fun _ _ _ h1 h2 => le_trans h1 h2⟩

/-! ## Claim theorems -/

/-- C8: `stripMarkdown` is a pure function (a total Lean function of the
input string alone) that removes image syntax, unwraps links to their text,
replaces markup punctuation by spaces, collapses whitespace and trims; on
the spec's example, `stripMarkdown "**Hi** [link](url) ![img](url2)" =
"Hi link"`. -/
theorem stripMarkdown_example :
    stripMarkdown "**Hi** [link](url) ![img](url2)" = "Hi link" ∧
    stripMarkdown "" = "" := by
  exact ⟨by decide, by decide⟩

/-- C5: the page in the returned pagination is always ≥ 1: it is 1 when the
raw parameter is missing, not a single string, non-numeric, zero or
negative, and the parsed integer itself when that is positive. -/
theorem page_ge_one (p : Params) (b : Backend) :
    1 ≤ (Home p b).pagination.page ∧
    ((p.page = ParamVal.undef ∨ (∃ l, p.page = ParamVal.strs l)) →
      (Home p b).pagination.page = 1) ∧
    (∀ s, p.page = ParamVal.str s → jsParseInt s = none →
      (Home p b).pagination.page = 1) ∧
    (∀ s n, p.page = ParamVal.str s → jsParseInt s = some n → n ≤ 0 →
      (Home p b).pagination.page = 1) ∧
    (∀ s n, p.page = ParamVal.str s → jsParseInt s = some n → 0 < n →
      (Home p b).pagination.page = n) := by
  rw [home_page_eq]
  refine ⟨le_max_left 1 _, ?_, ?_, ?_, ?_⟩
  · rintro (h | ⟨l, h⟩) <;> rw [h] <;> rfl
  · intro s hs hp
    rw [hs]
    simp only [pageOf, strOr, hp]
    omega
  · intro s n hs hp hn
    rw [hs]
    simp only [pageOf, strOr, hp]
    split <;> omega
  · intro s n hs hp hn
    rw [hs]
    simp only [pageOf, strOr, hp]
    split <;> omega

/-- C5 witness: instantiated at a request whose raw `page` is the string
`"-3"`, which parses to the negative integer `-3`, and at one where it is
the positive `"2"`. -/
theorem page_ge_one_witness :
    (Home noParams failingBackend).pagination.page = 1 ∧
    (Home { noParams with page := ParamVal.str "-3" } failingBackend).pagination.page = 1 ∧
    (Home { noParams with page := ParamVal.str "2" } failingBackend).pagination.page = 2 := by
  refine ⟨(page_ge_one noParams failingBackend).2.1 (Or.inl rfl),
    (page_ge_one { noParams with page := ParamVal.str "-3" } failingBackend).2.2.2.1
      "-3" (-3) rfl (by decide) (by decide),
    (page_ge_one { noParams with page := ParamVal.str "2" } failingBackend).2.2.2.2
      "2" 2 rfl (by decide) (by decide)⟩

/-- C6: the category of the returned filters is `none` when the trimmed raw
parameter is `"all"`, empty, or missing (or not a single string), and the
trimmed raw string otherwise. -/
theorem category_normalization (p : Params) (b : Backend) :
    (∀ s, p.category = ParamVal.str s → jsTrim s = "" →
      (Home p b).filters.category = none) ∧
    (∀ s, p.category = ParamVal.str s → jsTrim s = "all" →
      (Home p b).filters.category = none) ∧
    (∀ s, p.category = ParamVal.str s → jsTrim s ≠ "" → jsTrim s ≠ "all" →
      (Home p b).filters.category = some (jsTrim s)) ∧
    ((p.category = ParamVal.undef ∨ (∃ l, p.category = ParamVal.strs l)) →
      (Home p b).filters.category = none) := by
  rw [home_filter_category_eq]
  refine ⟨?_, ?_, ?_, ?_⟩
  · intro s hs h
    simp [filterCategoryOf, categoryOf, strOr, hs, h]
  · intro s hs h
    simp [filterCategoryOf, categoryOf, strOr, hs, h]
  · intro s hs h1 h2
    simp [filterCategoryOf, categoryOf, strOr, hs, h1, h2]
  · rintro (h | ⟨l, h⟩) <;> rw [h] <;> rfl

/-- C6 witness: instantiated at `category = " all "` (trims to `"all"`,
giving `none`) and at `category = " books "` (trims to `"books"`). -/
theorem category_normalization_witness :
    (Home { noParams with category := ParamVal.str " all " } failingBackend).filters.category
      = none ∧
    (Home { noParams with category := ParamVal.str " books " } failingBackend).filters.category
      = some "books" := by
  refine ⟨(category_normalization { noParams with category := ParamVal.str " all " }
      failingBackend).2.1 " all " rfl (by decide), ?_⟩
  have h := (category_normalization { noParams with category := ParamVal.str " books " }
      failingBackend).2.2.1 " books " rfl (by decide) (by decide)
  rw [h]
  decide

/-- C4: when the search read fails the handler still returns a complete view
model: the product list is empty, the total is 0, and the pagination keeps
the requested page and page size. -/
theorem search_fail_viewmodel (p : Params) (b : Backend)
    (h : b.search = Except.error ()) :
    (Home p b).products = [] ∧
    (Home p b).pagination.total = 0 ∧
    (Home p b).pagination.page = pageOf p.page ∧
    (Home p b).pagination.pageSize = PAGE_SIZE := by
  refine ⟨?_, ?_, rfl, rfl⟩
  · simp [Home, h, fallbackExcept]
  · simp [Home, h, fallbackExcept]

/-- C4 witness: instantiated at the all-failing backend. -/
theorem search_fail_viewmodel_witness :
    (Home noParams failingBackend).products = [] ∧
    (Home noParams failingBackend).pagination.total = 0 ∧
    (Home noParams failingBackend).pagination.page = pageOf noParams.page ∧
    (Home noParams failingBackend).pagination.pageSize = PAGE_SIZE :=
  search_fail_viewmodel noParams failingBackend rfl

/-- C7: when the session carries no authenticated user (no session, no user,
or a falsy user id), the returned pendingOrders is empty and the
pending-orders read is never invoked: the view model does not depend on the
pending-orders collaborator at all. -/
theorem no_user_no_pending_orders (p : Params) (b : Backend)
    (h : sessionUserId b.session = none) :
    (Home p b).pendingOrders = [] ∧
    (∀ f, Home p { b with pendingOrders := f } = Home p b) := by
  constructor
  · simp [Home, h]
  · intro f
    simp [Home, h]

/-- C7 witness: instantiated at the session-free failing backend, with a
pending-orders collaborator that would return a non-empty list if it were
ever consulted. -/
theorem no_user_no_pending_orders_witness :
    (Home noParams failingBackend).pendingOrders = [] ∧
    Home noParams
        { failingBackend with pendingOrders := fun _ => Except.ok [{ id := "o9" }] }
      = Home noParams failingBackend :=
  ⟨(no_user_no_pending_orders noParams failingBackend rfl).1,
   (no_user_no_pending_orders noParams failingBackend rfl).2
     (fun _ => Except.ok [{ id := "o9" }])⟩

/-- C1: for every request and every failure pattern among the optional
sub-reads, the handler returns a fully populated view model (it is a total
function, so no exception escapes), and each failing optional read takes its
defined fallback: empty search result, null announcement, zero visitors,
empty category lists, empty ratings mapping, empty pending orders. -/
theorem home_total_with_fallbacks (p : Params) (b : Backend) :
    (b.search = Except.error () →
      (Home p b).products = [] ∧ (Home p b).pagination.total = 0) ∧
    (b.announcement = Except.error () → (Home p b).announcement = none) ∧
    (b.visitorCount = Except.error () → (Home p b).visitorCount = 0) ∧
    (b.categoryConfig = Except.error () → (Home p b).categoryConfig = []) ∧
    (b.categoryConfig = Except.error () → b.productCategories = Except.error () →
      (Home p b).categories = []) ∧
    ((∀ ids, b.ratings ids = Except.error ()) →
      ∀ ep ∈ (Home p b).products, ep.rating = 0 ∧ ep.reviewCount = 0) ∧
    ((∀ uid, b.pendingOrders uid = Except.error ()) →
      (Home p b).pendingOrders = []) := by
  refine ⟨?_, ?_, ?_, ?_, ?_, ?_, ?_⟩
  · intro h
    constructor <;> simp [Home, h, fallbackExcept]
  · intro h
    simp [Home, h, fallbackExcept]
  · intro h
    simp [Home, h, fallbackExcept]
  · intro h
    simp [Home, h, fallbackExcept, sortedConfig]
  · intro h1 h2
    simp [Home, h1, h2, fallbackExcept, mergedCategories, categoryNamesOf,
      extraCategoriesOf, sortedConfig]
  · intro h ep hep
    simp only [Home, h, fallbackExcept] at hep
    obtain ⟨prod, _, rfl⟩ := List.mem_map.1 hep
    simp [enrich]
  · intro h
    simp only [Home]
    cases hs : sessionUserId b.session with
    | none => rfl
    | some uid => simp [h uid, fallbackExcept]

/-- C1 witness: instantiated at the all-failing backend; each fallback value
is observed. -/
theorem home_total_with_fallbacks_witness :
    (Home noParams failingBackend).products = [] ∧
    (Home noParams failingBackend).pagination.total = 0 ∧
    (Home noParams failingBackend).announcement = none ∧
    (Home noParams failingBackend).visitorCount = 0 ∧
    (Home noParams failingBackend).categoryConfig = [] ∧
    (Home noParams failingBackend).categories = [] ∧
    (Home noParams failingBackend).pendingOrders = [] := by
  have h := home_total_with_fallbacks noParams failingBackend
  exact ⟨(h.1 rfl).1, (h.1 rfl).2, h.2.1 rfl, h.2.2.1 rfl, h.2.2.2.1 rfl,
    h.2.2.2.2.1 rfl rfl, h.2.2.2.2.2.2 (fun _ => rfl)⟩

/-- C3: when the ratings read fails, every product in the view model carries
rating 0 and reviewCount 0; more generally, enrichment of any product whose
id is absent from the ratings mapping yields rating 0 and reviewCount 0. -/
theorem rating_defaults_zero (p : Params) (b : Backend) :
    ((∀ ids, b.ratings ids = Except.error ()) →
      ∀ ep ∈ (Home p b).products, ep.rating = 0 ∧ ep.reviewCount = 0) ∧
    (∀ rm prod, rm.lookup prod.id = none →
      (enrich rm prod).rating = 0 ∧ (enrich rm prod).reviewCount = 0) := by
  constructor
  · intro h ep hep
    simp only [Home, h, fallbackExcept] at hep
    obtain ⟨prod, _, rfl⟩ := List.mem_map.1 hep
    simp [enrich]
  · intro rm prod h
    simp [enrich, h]

/-- C3 witness: a product of the failing-ratings backend is observed with
zero rating, and enrichment against a mapping missing the product's id
yields zeros. -/
theorem rating_defaults_zero_witness :
    ((enrich [] prodP1).rating = 0 ∧ (enrich [] prodP1).reviewCount = 0) ∧
    ((enrich ratingsP9 prodP1).rating = 0 ∧
      (enrich ratingsP9 prodP1).reviewCount = 0) ∧
    (enrich [] prodP1).rating = 0 := by
  refine ⟨(rating_defaults_zero noParams ratingsFailBackend).2 [] prodP1 rfl,
    (rating_defaults_zero noParams ratingsFailBackend).2 ratingsP9 prodP1 (by decide),
    ?_⟩
  exact ((rating_defaults_zero noParams ratingsFailBackend).1 (fun _ => rfl)
    (enrich [] prodP1) (by decide)).1

/-- C10: the categoryConfig placed in the view model is the config array
after the in-place sort, hence always in ascending sortOrder (a missing
sortOrder reading as 0). -/
theorem categoryConfig_sorted (p : Params) (b : Backend) :
    List.Sorted bySortOrder (Home p b).categoryConfig := by
  have h : (Home p b).categoryConfig
      = sortedConfig (fallbackExcept b.categoryConfig []) := rfl
  rw [h]
  exact List.sorted_insertionSort bySortOrder _

/-- C10 witness: instantiated at the successful backend, whose config rows
arrive in descending sortOrder. -/
theorem categoryConfig_sorted_witness :
    List.Sorted bySortOrder (Home noParams okBackend).categoryConfig :=
  categoryConfig_sorted noParams okBackend

/-- C2 counterexample: the merged category list can contain duplicates — the
merge never deduplicates within its two inputs. With an empty config and the
product-category list `["C", "C"]`, the result is `["C", "C"]`, which is not
duplicate-free, refuting the claim that the resulting list has no duplicates
for every pair of inputs. -/
theorem merged_categories_dup_cex :
    mergedCategories [] ["C", "C"] = ["C", "C"] ∧
    ¬ (mergedCategories [] ["C", "C"]).Nodup := by
  exact ⟨by decide, by decide⟩

/-- C2 (amended): the merged list is the config names in ascending sortOrder
followed by the product-observed names not already among the config names,
sorted lexicographically; deduplication happens only between the two parts,
so the result has no duplicates provided the config names and the
product-category list are each duplicate-free. On the spec's example
(config `[B/2, A/1]`, products `[A, C]`) the result is `["A", "B", "C"]`. -/
theorem merged_categories_spec :
    (mergedCategories [{ name := "B", sortOrder := some 2 },
        { name := "A", sortOrder := some 1 }] ["A", "C"] = ["A", "B", "C"]) ∧
    (∀ cfg pc, (cfg.map CategoryItem.name).Nodup → pc.Nodup →
      (mergedCategories cfg pc).Nodup) ∧
    (∀ cfg pc x, x ∈ mergedCategories cfg pc ↔
      (x ∈ cfg.map CategoryItem.name ∨ x ∈ pc)) ∧
    (∀ cfg pc, List.Sorted jsStrLe (extraCategoriesOf cfg pc)) := by
  have hperm : ∀ cfg : List CategoryItem,
      List.Perm (categoryNamesOf cfg) (cfg.map CategoryItem.name) :=
    fun cfg => (List.perm_insertionSort bySortOrder cfg).map CategoryItem.name
  have hextra : ∀ cfg pc (x : String), x ∈ extraCategoriesOf cfg pc ↔
      (x ∈ pc ∧ x ∉ categoryNamesOf cfg) := by
    intro cfg pc x
    unfold extraCategoriesOf
    rw [(List.perm_insertionSort jsStrLe _).mem_iff]
    simp [List.mem_filter]
  refine ⟨by decide, ?_, ?_, ?_⟩
  · intro cfg pc h1 h2
    unfold mergedCategories
    refine List.Nodup.append ?_ ?_ ?_
    · exact ((hperm cfg).nodup_iff).2 h1
    · exact ((List.perm_insertionSort jsStrLe _).nodup_iff).2
        (h2.filter _)
    · intro x hx hx2
      exact ((hextra cfg pc x).1 hx2).2 hx
  · intro cfg pc x
    unfold mergedCategories
    rw [List.mem_append, hextra cfg pc x, (hperm cfg).mem_iff]
    by_cases hc : x ∈ cfg.map CategoryItem.name
    · simp [hc, (hperm cfg).mem_iff]
    · simp [hc, (hperm cfg).mem_iff]
  · intro cfg pc
    exact List.sorted_insertionSort jsStrLe _

/-- C2 witness: the duplicate-freeness clause instantiated at the spec's
example inputs, whose side conditions hold by computation. -/
theorem merged_categories_spec_witness :
    (mergedCategories [{ name := "B", sortOrder := some 2 },
        { name := "A", sortOrder := some 1 }] ["A", "C"]).Nodup :=
  merged_categories_spec.2.1
    [{ name := "B", sortOrder := some 2 }, { name := "A", sortOrder := some 1 }]
    ["A", "C"] (by decide) (by decide)

/-- C9 counterexample: the id list passed to the ratings read is sorted but
never deduplicated: two items sharing the id `"a"` yield `["a", "a"]`,
refuting the claim that the list contains no duplicates. -/
theorem sorted_ids_dup_cex :
    sortedIdsOf [prodA1, prodA2] = ["a", "a"] ∧
    ¬ (sortedIdsOf [prodA1, prodA2]).Nodup := by
  exact ⟨by decide, by decide⟩

/-- C9 (amended): the id list passed to the ratings read is the
lexicographically sorted list of the truthy (non-empty) ids of the result's
items, duplicates retained: it is sorted, contains exactly the truthy ids
with their multiplicities, and two results whose item lists are permutations
of one another key the ratings read with the identical list. -/
theorem sorted_ids_spec :
    (∀ products, List.Sorted jsStrLe (sortedIdsOf products)) ∧
    (∀ products, List.Perm (sortedIdsOf products)
      ((products.map Product.id).filter (fun s => s ≠ ""))) ∧
    (∀ ps qs, List.Perm ps qs → sortedIdsOf ps = sortedIdsOf qs) := by
  refine ⟨fun products => List.sorted_insertionSort _ _,
    fun products => List.perm_insertionSort _ _, ?_⟩
  intro ps qs h
  have h2 : List.Perm (sortedIdsOf ps) (sortedIdsOf qs) := by
    refine ((List.perm_insertionSort _ _).trans ?_).trans
      (List.perm_insertionSort _ _).symm
    exact (h.map Product.id).filter _
  exact List.eq_of_perm_of_sorted h2 (List.sorted_insertionSort _ _)
    (List.sorted_insertionSort _ _)

/-- C9 witness: two item lists that are permutations of each other produce
the identical sorted id list. -/
theorem sorted_ids_spec_witness :
    sortedIdsOf [prodB, prodA1] = sortedIdsOf [prodA1, prodB] :=
  sorted_ids_spec.2.2 [prodB, prodA1] [prodA1, prodB] (by decide)
